import Mathlib

/-!
Verification of the patchwork-to-pull-request reconciliation scripts
(`pw-to-pr.py`, `update-check.py`).

The development shallowly embeds the Python code: pure string processing
becomes functions on `String`/`List Char`, external effects (HTTP calls,
git commands, check submission, email) become an explicit event trace or
environment parameters, and code that can raise becomes `Option`/`Except`.
-/

namespace PwToPr

/-! ## String primitives (Python semantics) -/

/-- Python `sub in l` at position 0: `sub` is a prefix of `l`. -/
def isPre : List Char → List Char → Bool
  | [], _ => true
  | _ :: _, [] => false
  | a :: as, b :: bs => a == b && isPre as bs

/-- Python `str.find`: first index at which `sub` occurs in `l` starting the
scan at absolute index `i`, or `-1` if there is no occurrence. -/
def findFrom : List Char → List Char → Nat → Int
  | [], sub, i => if isPre sub [] then (i : Int) else -1
  | c :: t, sub, i => if isPre sub (c :: t) then (i : Int) else findFrom t sub (i + 1)

/-- Python `s.find(sub)`. -/
def pyFind (s sub : String) : Int :=
  findFrom s.data sub.data 0

/-- `re.search(r'^pat', line)` for a literal pattern: prefix test. -/
def pyStartsWith (s pre : String) : Bool :=
  isPre pre.data s.data

/-- ASCII lower-casing of one character (the `re.IGNORECASE` normal form). -/
def lowerChar (c : Char) : Char :=
  if 'A' ≤ c && c ≤ 'Z' then Char.ofNat (c.toNat + 32) else c

/-- ASCII lower-casing of a character list. -/
def lowerL (l : List Char) : List Char :=
  l.map lowerChar

/-- Decimal digit character for `d % 10`-style arguments (`d ≥ 9` gives `'9'`;
the function is only ever applied to `d < 10`). -/
def digitChar : Nat → Char
  | 0 => '0' | 1 => '1' | 2 => '2' | 3 => '3' | 4 => '4'
  | 5 => '5' | 6 => '6' | 7 => '7' | 8 => '8' | _ => '9'

/-- Decimal digit list with structural fuel (any `fuel ≥ n` suffices). -/
def natDigitsAux : Nat → Nat → List Char
  | 0, n => [digitChar n]
  | fuel + 1, n =>
    if n < 10 then [digitChar n]
    else natDigitsAux fuel (n / 10) ++ [digitChar (n % 10)]

/-- Decimal digit list of a natural number, as Python `str(n)` renders it. -/
def natDigits (n : Nat) : List Char :=
  natDigitsAux n n

/-- Python `str(n)` for a natural number. -/
def natToStr (n : Nat) : String :=
  ⟨natDigits n⟩

/-- `re.search(sub, s, re.IGNORECASE)` for a literal (regex-metacharacter-free)
pattern `sub`: case-insensitive substring search, as a Boolean. -/
def icontains (s sub : String) : Bool :=
  findFrom (lowerL s.data) (lowerL sub.data) 0 != (-1 : Int)

/-! ## File-list extraction (`patch_get_file_list`, pw-to-pr.py:446-476)

The source iterates over the lines of the diff text; for a line matching
`^\-\-\- ` it runs `if line.find('dev/null'): continue` and otherwise appends
`line[line.find('/')+1:]`.  Note that Python's `find` returns an index (or
`-1`), and the guard tests its truthiness, not `>= 0`. -/

/-- One iteration of the `for line in lines` loop body of
`patch_get_file_list`. -/
def file_list_step (file_list : List String) (line : String) : List String :=
  if pyStartsWith line "--- " then
    if findFrom line.data "dev/null".data 0 != (0 : Int) then
      file_list
    else
      file_list ++ [⟨line.data.drop (findFrom line.data "/".data 0 + 1).toNat⟩]
  else
    file_list

/-- `patch_get_file_list(patch)` (pw-to-pr.py:446-476): `None` diff yields `[]`;
otherwise fold the loop body over `patch.split('\n')`. -/
def patch_get_file_list (patch : Option String) : List String :=
  match patch with
  | none => []
  | some p => (p.splitOn "\n").foldl file_list_step []

/-! ## Data model -/

/-- A tracker patch, as the engine uses it: its id and its name. -/
structure Patch where
  id : Nat
  name : String
deriving DecidableEq, Repr

/-- A tracker series: id, possibly-null name, ordered patches. -/
structure Series where
  id : Nat
  name : Option String
  patches : List Patch
deriving DecidableEq, Repr

/-- An open pull request on the forge: number, title, head branch ref. -/
structure PullReq where
  number : Nat
  title : String
  headRef : String
deriving DecidableEq, Repr

/-- One repository variant's filter patterns (config keys `exclude`/`include`). -/
structure RepoDetail where
  excl : List String
  incl : List String
deriving DecidableEq, Repr

/-- The command-line override flags that gate side effects. -/
structure Flags where
  ignore_check : Bool
  no_update_check : Bool
  dry_run : Bool
deriving DecidableEq, Repr

/-- Email policy: the config `enable` switch and whether `EMAIL_TOKEN` is in
the environment (`email_compose` / `email_sendmail`). -/
structure EmailCfg where
  enable : Bool
  tokenPresent : Bool
deriving DecidableEq, Repr

/-- The run environment: what the tracker, git and filesystem answer.
`checkOf` is the check state `pw_get_patch` reports for a patch id, `diffOf`
its diff text, `applyOk` whether `git am` of that patch succeeds, `pushOk`
whether `git push` of a series branch succeeds, `checkoutOk`/`branchOk` the
two `git checkout` calls, `rmatch` the `re.search(pat, name, re.IGNORECASE)`
verdict for a config pattern, and `fileOk` the `os.path.exists` probe of a
file path under the source directory. -/
structure Env where
  checkOf : Nat → String
  diffOf : Nat → Option String
  applyOk : Nat → Bool
  pushOk : Nat → Bool
  checkoutOk : Bool
  branchOk : Nat → Bool
  rmatch : String → String → Bool
  fileOk : String → Bool

/-- The observable side effects of a run, in order of occurrence. -/
inductive Event where
  | submitCheck (patchId : Nat) (state : Nat)
  | amAbort
  | email
  | push (seriesId : Nat)
  | createPR (title : String)
  | closePR (number : Nat)
  | deleteBranch (ref : String)
deriving DecidableEq, Repr

/-! ## Series tag parsing and PR lookup -/

/-- The regex `^\[PW_SID:([0-9]+)\]` of `get_pw_sid` (pw-to-pr.py:433-443):
a well-formed match gives the digit group's value, otherwise no match. -/
def parse_sid_chars (l : List Char) : Option Nat :=
  if isPre "[PW_SID:".data l then
    let rest := l.drop 8
    let digits := rest.takeWhile Char.isDigit
    if digits.length > 0 && isPre "]".data (rest.drop digits.length) then
      some (digits.foldl (fun n c => n * 10 + (c.toNat - 48)) 0)
    else none
  else none

/-- `get_pw_sid(pr_title)` (pw-to-pr.py:433-443): on a failed regex match the
`AttributeError` handler returns the sentinel `0`. -/
def get_pw_sid (title : String) : Nat :=
  (parse_sid_chars title.data).getD 0

/-- The idempotency tag `'PW_SID:{}'.format(str(id))` of `github_pr_exist`. -/
def pw_tag (id : Nat) : String :=
  "PW_SID:" ++ natToStr id

/-- The PR title `'[{}:{}] {}'.format(PR_TITLE_PREFIX, series["id"], series["name"])`
built by `create_pr` (pw-to-pr.py:423-430). -/
def pr_title (id : Nat) (name : String) : String :=
  "[PW_SID:" ++ natToStr id ++ "] " ++ name

/-- `github_pr_exist(id)` (pw-to-pr.py:257-265): case-insensitive substring
scan of the cached open-PR titles for the series tag. -/
def github_pr_exist (pulls : List PullReq) (id : Nat) : Bool :=
  pulls.any (fun pull => icontains pull.title (pw_tag id))

/-- `github_close_pr(pr_id)` (pw-to-pr.py:241-254): close the PR, then delete
its head branch. -/
def github_close_pr_events (pr : PullReq) : List Event :=
  [Event.closePR pr.number, Event.deleteBranch pr.headRef]

/-- The closing pass of `main` (pw-to-pr.py:738-752): per open PR, extract the
sid; keep the PR when the sid is a key of the series index, otherwise close it
(unless dry-run). -/
def closing_pass : List PullReq → List Nat → Bool → List Event
  | [], _, _ => []
  | pr :: rest, new_series, dry_run =>
    (if get_pw_sid pr.title ∈ new_series then []
     else if dry_run then [] else github_close_pr_events pr)
      ++ closing_pass rest new_series dry_run

/-! ## Per-series decision pipeline -/

/-- `series_checked(series)` (pw-to-pr.py:370-378): fetch the series' first
patch and test its check state against `'pending'`.  `none` models the
`IndexError` on an empty patch list. -/
def series_checked (checkOf : Nat → String) (s : Series) : Option Bool :=
  match s.patches with
  | [] => none
  | p :: _ => some (checkOf p.id != "pending")

/-- `series_get_file_list(series)` (pw-to-pr.py:479-490). -/
def series_get_file_list (diffOf : Nat → Option String) (s : Series) : List String :=
  s.patches.foldl (fun acc p => acc ++ patch_get_file_list (diffOf p.id)) []

/-- `filter_repo_type(repo_detail, series, src_dir)` (pw-to-pr.py:493-539):
exclude patterns first, then include patterns, then the file-existence probe
over the derived file list (empty list is a data error and yields `False`).
`none` models the `TypeError` `re.search` raises on a `None` series name. -/
def filter_repo_type (rmatch : String → String → Bool) (fileOk : String → Bool)
    (diffOf : Nat → Option String) (repo_detail : RepoDetail) (s : Series) :
    Option Bool :=
  match s.name with
  | none => none
  | some nm =>
    if repo_detail.excl.any (fun pat => rmatch pat nm) then some false
    else if repo_detail.incl.any (fun pat => rmatch pat nm) then some true
    else
      let file_list := series_get_file_list diffOf s
      if file_list.length = 0 then some false
      else some (file_list.all fileOk)

/-- The null-name fixup of `main` (pw-to-pr.py:638-641): a `None` series name
is replaced by the first patch's name.  `none` models the `IndexError` on an
empty patch list. -/
def fix_series_name (s : Series) : Option Series :=
  match s.name with
  | some _ => some s
  | none =>
    match s.patches with
    | [] => none
    | p :: _ => some ⟨s.id, some p.name, s.patches⟩

/-- The `for patch in series['patches']` apply loop of `main`
(pw-to-pr.py:670-708): per patch, run `git am`; on success submit a pass
check (state 1) unless gated by dry-run/no-update-check; on the first failure
submit a fail check (state 3, same gating), abort the apply and stop.
Returns the emitted events and the verdict. -/
def apply_loop (fl : Flags) (env : Env) : List Patch → List Event × Bool
  | [] => ([], true)
  | p :: rest =>
    if env.applyOk p.id then
      let ev := if fl.dry_run then []
        else if fl.no_update_check then []
        else [Event.submitCheck p.id 1]
      let r := apply_loop fl env rest
      (ev ++ r.1, r.2)
    else
      ((if fl.dry_run then []
        else if fl.no_update_check then []
        else [Event.submitCheck p.id 3]) ++ [Event.amAbort], false)

/-- `email_compose` / `email_sendmail` (pw-to-pr.py:268-331): the mail goes
out only when the config enables email and `EMAIL_TOKEN` is present. -/
def email_events (cfg : EmailCfg) : List Event :=
  if cfg.enable then (if cfg.tokenPresent then [Event.email] else []) else []

/-- The per-series tail of `main` after all guards (pw-to-pr.py:667-732):
run the apply loop; on failure notify (unless dry-run) and stop without
push or PR; on success (unless dry-run) push the branch and, only if the
push succeeded, create the pull request. -/
def series_apply_report (fl : Flags) (cfg : EmailCfg) (env : Env) (s : Series) :
    List Event :=
  let r := apply_loop fl env s.patches
  if r.2 then
    if fl.dry_run then r.1
    else
      r.1 ++ [Event.push s.id]
        ++ (if env.pushOk s.id then [Event.createPR (pr_title s.id (s.name.getD ""))]
            else [])
  else
    r.1 ++ (if fl.dry_run then [] else email_events cfg)

/-- One iteration of the per-series loop of `main` (pw-to-pr.py:626-732):
skip when already checked (unless ignore-check), fix a null name, skip when
the relevance filter declines, skip when a PR already exists, skip when
either checkout fails; otherwise apply and report.  `none` models an
uncaught exception. -/
def process_series (fl : Flags) (cfg : EmailCfg) (env : Env) (repo_detail : RepoDetail)
    (pulls : List PullReq) (s : Series) : Option (List Event) :=
  match (if fl.ignore_check then some false else series_checked env.checkOf s) with
  | none => none
  | some true => some []
  | some false =>
    match fix_series_name s with
    | none => none
    | some s2 =>
      match filter_repo_type env.rmatch env.fileOk env.diffOf repo_detail s2 with
      | none => none
      | some false => some []
      | some true =>
        if github_pr_exist pulls s2.id then some []
        else if !env.checkoutOk then some []
        else if !(env.branchOk s2.id) then some []
        else some (series_apply_report fl cfg env s2)

/-- The whole `for id in new_series` loop of `main`, concatenating the
event traces of the iterations. -/
def run_series_loop (fl : Flags) (cfg : EmailCfg) (env : Env) (repo_detail : RepoDetail)
    (pulls : List PullReq) : List Series → Option (List Event)
  | [] => some []
  | s :: rest =>
    match process_series fl cfg env repo_detail pulls s with
    | none => none
    | some evs =>
      match run_series_loop fl cfg env repo_detail pulls rest with
      | none => none
      | some evs2 => some (evs ++ evs2)

/-! ## Tracker client -/

/-- One HTTP response of the paginated patch listing: its JSON array and
whether a `next` link is present. -/
structure Page (α : Type) where
  json : List α
  next : Bool

/-- `pw_get_patches_by_state` (pw-to-pr.py:160-188): concatenate the pages,
following the `next` link until a page without one. -/
def pw_get_patches_by_state {α : Type} : List (Page α) → List α
  | [] => []
  | pg :: rest => pg.json ++ (if pg.next then pw_get_patches_by_state rest else [])

/-- Well-formed pagination: every page but the last carries a `next` link and
the last does not. -/
def pages_chained {α : Type} : List (Page α) → Bool
  | [] => true
  | pg :: rest => (pg.next == !rest.isEmpty) && pages_chained rest

/-- The JSON body `pw_submit_check` posts (pw-to-pr.py:220-226). -/
structure CheckContent where
  user : Nat
  state : Nat
  target_url : String
  context : String
  description : String
deriving DecidableEq, Repr

/-- `requests_post` (pw-to-pr.py:59-66, update-check.py:18-25): any status
other than 201 raises `requests.HTTPError`. -/
def requests_post (status : Nat) : Except Nat Unit :=
  if status ≠ 201 then Except.error status else Except.ok ()

/-- `pw_submit_check` (pw-to-pr.py:191-230, identical in update-check.py:40-79):
without `PATCHWORK_TOKEN` in the environment, log and return `None` with no
POST; with it, POST the check content and raise on a non-201 status.  The
first component is the POST performed (`none` = no POST was made). -/
def pw_submit_check (tokenEnv : Option String) (postStatus : Nat) (patch_id : Nat)
    (state : Nat) (context description : String) (target_url : Option String) :
    Option CheckContent × Except Nat (Option CheckContent) :=
  match tokenEnv with
  | none => (none, Except.ok none)
  | some _tok =>
    let tu := match target_url with
      | none => ""
      | some u => u
    let content : CheckContent := ⟨104215, state, tu, context, description⟩
    match requests_post postStatus with
    | Except.error e => (some content, Except.error e)
    | Except.ok _ => (some content, Except.ok (some content))

/-! ## Event classifiers -/

def is_fail_check : Event → Bool
  | Event.submitCheck _ 3 => true
  | _ => false

def is_pass_check : Event → Bool
  | Event.submitCheck _ 1 => true
  | _ => false

def is_abort_ev : Event → Bool
  | Event.amAbort => true
  | _ => false

def is_push_ev : Event → Bool
  | Event.push _ => true
  | _ => false

def is_create_pr_ev : Event → Bool
  | Event.createPR _ => true
  | _ => false

def is_email_ev : Event → Bool
  | Event.email => true
  | _ => false

/-! ### Facts about the primitives -/

theorem findFrom_lower_bound (l sub : List Char) (i : Nat) :
    findFrom l sub i = -1 ∨ (i : Int) ≤ findFrom l sub i := by
  induction l generalizing i with
  | nil =>
    rw [findFrom]
    by_cases h : isPre sub [] = true
    · simp [h]
    · simp [h]
  | cons c t ih =>
    rw [findFrom]
    by_cases h : isPre sub (c :: t) = true
    · simp [h]
    · simp only [h, Bool.false_eq_true, if_false]
      rcases ih (i + 1) with h1 | h1
      · exact Or.inl h1
      · right
        have : ((i + 1 : Nat) : Int) = (i : Int) + 1 := by push_cast; ring
        omega

theorem findFrom_zero_isPre (l sub : List Char) (h : findFrom l sub 0 = 0) :
    isPre sub l = true := by
  by_cases hp : isPre sub l = true
  · exact hp
  · exfalso
    cases l with
    | nil =>
      rw [findFrom] at h
      simp [hp] at h
    | cons c t =>
      rw [findFrom] at h
      simp only [hp, Bool.false_eq_true, if_false, Nat.zero_add] at h
      rcases findFrom_lower_bound t sub 1 with h1 | h1
      · omega
      · push_cast at h1
        omega

theorem isPre_head (a : Char) (as l : List Char) (h : isPre (a :: as) l = true) :
    ∃ t, l = a :: t := by
  cases l with
  | nil => simp [isPre] at h
  | cons b bs =>
    simp only [isPre, Bool.and_eq_true, beq_iff_eq] at h
    exact ⟨bs, by rw [h.1]⟩

/-- Any line that starts with `"--- "` makes the truthiness guard
`if line.find('dev/null'):` fire, because the occurrence index can never be 0. -/
theorem devnull_guard_fires (line : String) (h : pyStartsWith line "--- " = true) :
    findFrom line.data "dev/null".data 0 ≠ (0 : Int) := by
  intro hzero
  have hdev : isPre "dev/null".data line.data = true := findFrom_zero_isPre _ _ hzero
  have hdash : isPre "--- ".data line.data = true := h
  obtain ⟨t1, ht1⟩ := isPre_head 'd' _ _ (by simpa using hdev)
  obtain ⟨t2, ht2⟩ := isPre_head '-' _ _ (by simpa using hdash)
  rw [ht1] at ht2
  simp at ht2

/-- The loop body of `patch_get_file_list` never extends the accumulator. -/
theorem file_list_step_fixed (file_list : List String) (line : String) :
    file_list_step file_list line = file_list := by
  unfold file_list_step
  by_cases h : pyStartsWith line "--- " = true
  · simp only [h, if_true]
    have := devnull_guard_fires line h
    simp [this]
  · simp [h]

theorem foldl_file_list_step (lines : List String) (acc : List String) :
    lines.foldl file_list_step acc = acc := by
  induction lines generalizing acc with
  | nil => rfl
  | cons l t ih => rw [List.foldl_cons, file_list_step_fixed, ih]

/-- C1: the claim fails on the code.  Because `if line.find('dev/null'):`
tests the truthiness of a find index that is never 0 on a line starting with
`"--- "`, every old-file line is skipped and `patch_get_file_list` returns the
empty list on every input; in particular a diff containing `--- a/foo/bar.c`
contributes no path at all, contradicting the claimed extraction. -/
theorem patch_get_file_list_always_empty :
    patch_get_file_list (some "--- a/foo/bar.c\n+++ b/foo/bar.c") = [] ∧
      ∀ d : Option String, patch_get_file_list d = [] := by
  have hgen : ∀ d : Option String, patch_get_file_list d = [] := by
    intro d
    cases d with
    | none => rfl
    | some p => exact foldl_file_list_step _ _
  exact ⟨hgen _, hgen⟩

/-! ### Pagination -/

theorem pw_get_patches_chained_join {α : Type} (pages : List (Page α))
    (h : pages_chained pages = true) :
    pw_get_patches_by_state pages = (pages.map Page.json).flatten := by
  induction pages with
  | nil => rfl
  | cons pg rest ih =>
    rw [pages_chained] at h
    simp only [Bool.and_eq_true, beq_iff_eq] at h
    rcases h with ⟨hnext, hch⟩
    rw [pw_get_patches_by_state]
    cases rest with
    | nil =>
      simp only [List.isEmpty_nil, Bool.not_true] at hnext
      simp [hnext]
    | cons q qs =>
      simp only [List.isEmpty_cons, Bool.not_false] at hnext
      rw [if_pos hnext, ih hch]
      simp

/-- C7: fetching patches by state follows the next link until exhausted and
returns the concatenation of all pages; under the assumption that the pages
are non-overlapping and the tracker serves exactly the matching patches, the
result contains every matching patch with no duplicates and no omissions. -/
theorem pw_get_patches_by_state_complete {α : Type} (pages : List (Page α))
    (P : α → Prop)
    (hch : pages_chained pages = true)
    (hcover : ∀ x, P x ↔ ∃ pg ∈ pages, x ∈ pg.json)
    (hnodup : ∀ pg ∈ pages, pg.json.Nodup)
    (hdisj : (pages.map Page.json).Pairwise List.Disjoint) :
    (∀ x, x ∈ pw_get_patches_by_state pages ↔ P x) ∧
      (pw_get_patches_by_state pages).Nodup := by
  rw [pw_get_patches_chained_join pages hch]
  constructor
  · intro x
    rw [hcover x, List.mem_flatten]
    constructor
    · rintro ⟨l, hl, hx⟩
      rw [List.mem_map] at hl
      obtain ⟨pg, hpg, rfl⟩ := hl
      exact ⟨pg, hpg, hx⟩
    · rintro ⟨pg, hpg, hx⟩
      exact ⟨pg.json, List.mem_map_of_mem _ hpg, hx⟩
  · rw [List.nodup_flatten]
    refine ⟨?_, hdisj⟩
    intro l hl
    rw [List.mem_map] at hl
    obtain ⟨pg, hpg, rfl⟩ := hl
    exact hnodup pg hpg

/-- C7 witness: a concrete two-page fixture. -/
theorem pw_get_patches_by_state_complete_witness :
    (∀ x : Nat, x ∈ pw_get_patches_by_state [⟨[1, 2], true⟩, ⟨[3], false⟩] ↔
        ∃ pg ∈ [(⟨[1, 2], true⟩ : Page Nat), ⟨[3], false⟩], x ∈ pg.json) ∧
      (pw_get_patches_by_state [(⟨[1, 2], true⟩ : Page Nat), ⟨[3], false⟩]).Nodup :=
  pw_get_patches_by_state_complete [⟨[1, 2], true⟩, ⟨[3], false⟩]
    (fun x => ∃ pg ∈ [(⟨[1, 2], true⟩ : Page Nat), ⟨[3], false⟩], x ∈ pg.json)
    rfl (fun _ => Iff.rfl)
    (by intro pg hpg; simp at hpg; rcases hpg with rfl | rfl <;> decide)
    (by
      refine List.Pairwise.cons ?_ (List.pairwise_singleton _ _)
      intro l hl
      simp only [List.map_cons, List.map_nil, List.mem_singleton] at hl
      subst hl
      intro a ha hb
      simp only at ha hb
      rcases (by simpa using ha : a = 1 ∨ a = 2) with rfl | rfl <;> simp at hb)

/-! ### Check submission -/

/-- C8: without `PATCHWORK_TOKEN` no POST happens and `None` is returned
without raising; with the token, a non-201 response raises the transport
error carrying the status. -/
theorem pw_submit_check_token_gate (postStatus patch_id state : Nat)
    (context description : String) (target_url : Option String) :
    (pw_submit_check none postStatus patch_id state context description target_url
        = (none, Except.ok none)) ∧
      (∀ tok : String, postStatus ≠ 201 →
        ∃ c : CheckContent,
          pw_submit_check (some tok) postStatus patch_id state context description
              target_url
            = (some c, Except.error postStatus)) := by
  constructor
  · rfl
  · intro tok h
    refine ⟨⟨104215, state,
      (match target_url with
        | none => ""
        | some u => u), context, description⟩, ?_⟩
    simp [pw_submit_check, requests_post, h]

/-- C8 witness: concrete status 500 with the token present and absent. -/
theorem pw_submit_check_token_gate_witness :
    (pw_submit_check none 500 1 3 "pre-ci_am" "err" none = (none, Except.ok none)) ∧
      ∃ c : CheckContent,
        pw_submit_check (some "tok") 500 1 3 "pre-ci_am" "err" none
          = (some c, Except.error 500) :=
  ⟨(pw_submit_check_token_gate 500 1 3 "pre-ci_am" "err" none).1,
    (pw_submit_check_token_gate 500 1 3 "pre-ci_am" "err" none).2 "tok" (by decide)⟩

/-! ### The closing pass -/

theorem closing_pass_mem_of (pulls : List PullReq) (idx : List Nat) (pr : PullReq)
    (hpr : pr ∈ pulls) (hsid : get_pw_sid pr.title ∉ idx) :
    Event.closePR pr.number ∈ closing_pass pulls idx false ∧
      Event.deleteBranch pr.headRef ∈ closing_pass pulls idx false := by
  induction pulls with
  | nil => cases hpr
  | cons q rest ih =>
    rw [closing_pass]
    rcases List.mem_cons.mp hpr with rfl | hmem
    · rw [if_neg hsid]
      constructor <;> simp [github_close_pr_events]
    · rcases ih hmem with ⟨h1, h2⟩
      exact ⟨List.mem_append_right _ h1, List.mem_append_right _ h2⟩

theorem closing_pass_closePR_mem (pulls : List PullReq) (idx : List Nat) (n : Nat) :
    Event.closePR n ∈ closing_pass pulls idx false ↔
      ∃ pr ∈ pulls, pr.number = n ∧ get_pw_sid pr.title ∉ idx := by
  induction pulls with
  | nil =>
    rw [closing_pass]
    simp
  | cons q rest ih =>
    rw [closing_pass, List.mem_append]
    constructor
    · rintro (h | h)
      · by_cases hq : get_pw_sid q.title ∈ idx
        · rw [if_pos hq] at h
          cases h
        · rw [if_neg hq] at h
          have h2 : Event.closePR n ∈ github_close_pr_events q := h
          rcases List.mem_cons.mp h2 with heq | h3
          · injection heq with hn
            exact ⟨q, List.mem_cons_self _ _, hn.symm, hq⟩
          · exact Event.noConfusion (List.mem_singleton.mp h3)
      · obtain ⟨pr, h1, h2, h3⟩ := ih.mp h
        exact ⟨pr, List.mem_cons_of_mem _ h1, h2, h3⟩
    · rintro ⟨pr, hmem, h2, h3⟩
      rcases List.mem_cons.mp hmem with rfl | h1
      · left
        rw [if_neg h3]
        show Event.closePR n ∈ github_close_pr_events pr
        rw [github_close_pr_events, ← h2]
        exact List.mem_cons_self _ _
      · right
        exact ih.mpr ⟨pr, h1, h2, h3⟩

/-- C2: the claim fails on the code.  On the malformed title `"Fix typo"` the
tag extractor returns the integer sentinel `0` (not an absent value), and the
closing pass, far from leaving the pull request untouched, closes it and
deletes its branch because `0` is not an active series id. -/
theorem malformed_title_pr_closed_cex :
    get_pw_sid "Fix typo" = 0 ∧
      closing_pass [⟨7, "Fix typo", "br7"⟩] [1, 3] false
        = [Event.closePR 7, Event.deleteBranch "br7"] := by
  constructor <;> rfl

/-- C2 (amended): for every open pull request whose title does not match the
tag pattern, extraction returns the sentinel `0` rather than raising, and the
closing pass closes that pull request and deletes its branch whenever `0` is
not among the active series ids (it is left untouched only in the degenerate
case that `0` is itself an indexed series id). -/
theorem malformed_title_pr_closed (title : String) (pulls : List PullReq)
    (idx : List Nat) (pr : PullReq)
    (hmal : parse_sid_chars title.data = none) :
    get_pw_sid title = 0 ∧
      (pr ∈ pulls → pr.title = title → (0 : Nat) ∉ idx →
        Event.closePR pr.number ∈ closing_pass pulls idx false ∧
          Event.deleteBranch pr.headRef ∈ closing_pass pulls idx false) := by
  have h0 : get_pw_sid title = 0 := by rw [get_pw_sid, hmal]; rfl
  refine ⟨h0, ?_⟩
  intro hpr htitle hidx
  refine closing_pass_mem_of pulls idx pr hpr ?_
  rw [htitle, h0]
  exact hidx

/-- C2 witness for the amended claim. -/
theorem malformed_title_pr_closed_witness :
    Event.closePR 7 ∈ closing_pass [⟨7, "Fix typo", "br7"⟩] [1, 3] false ∧
      Event.deleteBranch "br7" ∈ closing_pass [⟨7, "Fix typo", "br7"⟩] [1, 3] false :=
  (malformed_title_pr_closed "Fix typo" [⟨7, "Fix typo", "br7"⟩] [1, 3]
      ⟨7, "Fix typo", "br7"⟩ rfl).2
    (List.mem_singleton.mpr rfl) rfl (by decide)

/-- C5: in the closing pass, an open pull request whose title carries a
well-formed series tag is closed (and its branch deleted) exactly when the
tagged series id is not a member of the series index; a tagged pull request
whose id is in the index is left untouched. -/
theorem closing_pass_converges (pulls : List PullReq) (idx : List Nat)
    (pr : PullReq) (sid : Nat) (hpr : pr ∈ pulls)
    (htag : parse_sid_chars pr.title.data = some sid)
    (hnodup : (pulls.map PullReq.number).Nodup) :
    (Event.closePR pr.number ∈ closing_pass pulls idx false ↔ sid ∉ idx) ∧
      (sid ∉ idx → Event.deleteBranch pr.headRef ∈ closing_pass pulls idx false) := by
  have hsid : get_pw_sid pr.title = sid := by rw [get_pw_sid, htag]; rfl
  constructor
  · rw [closing_pass_closePR_mem]
    constructor
    · rintro ⟨pr2, hpr2, hnum, hni⟩
      have heq : pr2 = pr := List.inj_on_of_nodup_map hnodup hpr2 hpr hnum
      rw [heq, hsid] at hni
      exact hni
    · intro hni
      exact ⟨pr, hpr, rfl, by rwa [hsid]⟩
  · intro hni
    exact (closing_pass_mem_of pulls idx pr hpr (by rwa [hsid])).2

/-- C5 witness: open PRs tagged for series 1, 2, 3 against the active set
{1, 3} — PR 2 is closed with its branch, and the criterion is exactly
non-membership. -/
theorem closing_pass_converges_witness :
    (Event.closePR 2 ∈
        closing_pass [⟨1, "[PW_SID:1] a", "b1"⟩, ⟨2, "[PW_SID:2] b", "b2"⟩,
          ⟨3, "[PW_SID:3] c", "b3"⟩] [1, 3] false ↔ (2 : Nat) ∉ [1, 3]) ∧
      ((2 : Nat) ∉ [1, 3] →
        Event.deleteBranch "b2" ∈
          closing_pass [⟨1, "[PW_SID:1] a", "b1"⟩, ⟨2, "[PW_SID:2] b", "b2"⟩,
            ⟨3, "[PW_SID:3] c", "b3"⟩] [1, 3] false) :=
  closing_pass_converges
    [⟨1, "[PW_SID:1] a", "b1"⟩, ⟨2, "[PW_SID:2] b", "b2"⟩, ⟨3, "[PW_SID:3] c", "b3"⟩]
    [1, 3] ⟨2, "[PW_SID:2] b", "b2"⟩ 2 (by simp) rfl (by decide)

/-! ### Idempotent PR creation -/

theorem isPre_append_self (l t : List Char) : isPre l (l ++ t) = true := by
  induction l with
  | nil => rfl
  | cons a as ih => simp [isPre, ih]

theorem findFrom_found (l sub : List Char) (i k : Nat)
    (h : isPre sub (l.drop k) = true) : findFrom l sub i ≠ -1 := by
  induction l generalizing i k with
  | nil =>
    rw [List.drop_nil] at h
    cases sub with
    | nil =>
      rw [findFrom]
      simp only [isPre, if_true]
      omega
    | cons c cs => simp [isPre] at h
  | cons c t ih =>
    rw [findFrom]
    by_cases hp : isPre sub (c :: t) = true
    · rw [if_pos hp]
      omega
    · rw [if_neg hp]
      cases k with
      | zero =>
        rw [List.drop_zero] at h
        exact absurd h hp
      | succ k2 =>
        rw [List.drop_succ_cons] at h
        exact ih (i + 1) k2 h

theorem lowerL_append (a b : List Char) : lowerL (a ++ b) = lowerL a ++ lowerL b :=
  List.map_append _ a b

theorem lowerChar_digitChar (d : Nat) : lowerChar (digitChar d) = digitChar d := by
  rcases d with _ | _ | _ | _ | _ | _ | _ | _ | _ | d
  all_goals first
    | decide
    | exact (by decide : lowerChar '9' = '9')

theorem lowerL_natDigitsAux (fuel n : Nat) :
    lowerL (natDigitsAux fuel n) = natDigitsAux fuel n := by
  induction fuel generalizing n with
  | zero => simp [natDigitsAux, lowerL, lowerChar_digitChar]
  | succ f ih =>
    rw [natDigitsAux]
    by_cases h : n < 10
    · rw [if_pos h]
      simp [lowerL, lowerChar_digitChar]
    · rw [if_neg h, lowerL_append, ih]
      simp [lowerL, lowerChar_digitChar]

theorem lowerL_natDigits (n : Nat) : lowerL (natDigits n) = natDigits n :=
  lowerL_natDigitsAux n n

theorem data_append (s t : String) : (s ++ t).data = s.data ++ t.data := rfl

theorem natToStr_data (n : Nat) : (natToStr n).data = natDigits n := rfl

/-- A pull-request title built by `create_pr` for series `id` always contains
the idempotency tag that `github_pr_exist` scans for. -/
theorem icontains_pr_title (id : Nat) (name : String) :
    icontains (pr_title id name) (pw_tag id) = true := by
  rw [icontains, bne_iff_ne]
  have htag : lowerL (pw_tag id).data = "pw_sid:".data ++ natDigits id := by
    rw [pw_tag, data_append, natToStr_data, lowerL_append, lowerL_natDigits]
    rfl
  have htitle : lowerL (pr_title id name).data
      = '[' :: ("pw_sid:".data ++ (natDigits id
          ++ (lowerL "] ".data ++ lowerL name.data))) := by
    rw [pr_title, data_append, data_append, data_append, natToStr_data]
    rw [lowerL_append, lowerL_append, lowerL_append, lowerL_natDigits]
    have hhead : lowerL "[PW_SID:".data = '[' :: "pw_sid:".data := by decide
    rw [hhead]
    simp [List.append_assoc]
  rw [htag, htitle]
  apply findFrom_found _ _ 0 1
  rw [List.drop_succ_cons, List.drop_zero, ← List.append_assoc]
  exact isPre_append_self _ _

theorem fix_series_name_id (s s2 : Series) (h : fix_series_name s = some s2) :
    s2.id = s.id := by
  rw [fix_series_name] at h
  cases hn : s.name with
  | some nm =>
    rw [hn] at h
    injection h with h
    rw [← h]
  | none =>
    rw [hn] at h
    cases hp : s.patches with
    | nil => rw [hp] at h; cases h
    | cons p rest =>
      rw [hp] at h
      injection h with h
      rw [← h]

/-- C4: pull-request creation is idempotent.  If some open pull request's
title contains the tag `PW_SID:<id>` of a series (case-insensitively), the
per-series loop emits no PR creation for it; a whole run over series that all
have such pull requests creates none at all; and every title the loop itself
creates for a series contains that series' tag, so a second run against the
unchanged state creates zero additional pull requests. -/
theorem pr_exist_skips_creation :
    (∀ (fl : Flags) (cfg : EmailCfg) (env : Env) (repo_detail : RepoDetail)
        (pulls : List PullReq) (s : Series) (evs : List Event),
      (∃ pr ∈ pulls, icontains pr.title (pw_tag s.id) = true) →
      process_series fl cfg env repo_detail pulls s = some evs →
      ∀ t, Event.createPR t ∉ evs) ∧
    (∀ (fl : Flags) (cfg : EmailCfg) (env : Env) (repo_detail : RepoDetail)
        (pulls : List PullReq) (ls : List Series) (evs : List Event),
      (∀ s ∈ ls, ∃ pr ∈ pulls, icontains pr.title (pw_tag s.id) = true) →
      run_series_loop fl cfg env repo_detail pulls ls = some evs →
      ∀ t, Event.createPR t ∉ evs) ∧
    (∀ (id : Nat) (name : String), icontains (pr_title id name) (pw_tag id) = true) := by
  have hone : ∀ (fl : Flags) (cfg : EmailCfg) (env : Env) (repo_detail : RepoDetail)
      (pulls : List PullReq) (s : Series) (evs : List Event),
      (∃ pr ∈ pulls, icontains pr.title (pw_tag s.id) = true) →
      process_series fl cfg env repo_detail pulls s = some evs →
      ∀ t, Event.createPR t ∉ evs := by
    intro fl cfg env repo_detail pulls s evs hex hps t
    have hexist : github_pr_exist pulls s.id = true := by
      rw [github_pr_exist, List.any_eq_true]
      obtain ⟨pr, h1, h2⟩ := hex
      exact ⟨pr, h1, h2⟩
    rw [process_series] at hps
    split at hps
    · cases hps
    · injection hps with hevs
      rw [← hevs]
      exact List.not_mem_nil _
    · split at hps
      · cases hps
      · rename_i s2 hfix
        split at hps
        · cases hps
        · injection hps with hevs
          rw [← hevs]
          exact List.not_mem_nil _
        · rw [fix_series_name_id s s2 hfix, hexist] at hps
          injection hps with hevs
          rw [← hevs]
          exact List.not_mem_nil _
  refine ⟨hone, ?_, icontains_pr_title⟩
  intro fl cfg env repo_detail pulls ls
  induction ls with
  | nil =>
    intro evs _ hrun t
    rw [run_series_loop] at hrun
    injection hrun with hevs
    rw [← hevs]
    exact List.not_mem_nil _
  | cons s rest ih =>
    intro evs hall hrun t
    rw [run_series_loop] at hrun
    split at hrun
    · cases hrun
    · rename_i evs1 hps
      split at hrun
      · cases hrun
      · rename_i evs2 hrest
        injection hrun with hevs
        rw [← hevs]
        intro hmem
        rcases List.mem_append.mp hmem with h | h
        · exact hone fl cfg env repo_detail pulls s evs1
            (hall s (List.mem_cons_self _ _)) hps t h
        · exact ih evs2 (fun x hx => hall x (List.mem_cons_of_mem _ hx)) hrest t h

/-- C4 witness: a series whose tag is contained in an open PR title is
skipped. -/
theorem pr_exist_skips_creation_witness :
    ∀ t, Event.createPR t ∉ ([] : List Event) :=
  pr_exist_skips_creation.1 ⟨true, false, false⟩ ⟨false, false⟩
    ⟨fun _ => "pending", fun _ => none, fun _ => true, fun _ => true, true,
      fun _ => true, fun _ _ => true, fun _ => true⟩
    ⟨[], ["x"]⟩ [⟨1, "[PW_SID:5] x", "b"⟩] ⟨5, some "x", [⟨11, "a"⟩]⟩ []
    ⟨⟨1, "[PW_SID:5] x", "b"⟩, List.mem_singleton.mpr rfl, by decide⟩
    (by decide)

/-! ### The apply loop -/

theorem apply_loop_fail_trace (fl : Flags) (env : Env) (pre : List Patch)
    (p : Patch) (rest : List Patch)
    (hpre : ∀ q ∈ pre, env.applyOk q.id = true)
    (hp : env.applyOk p.id = false)
    (hdry : fl.dry_run = false) (hnu : fl.no_update_check = false) :
    apply_loop fl env (pre ++ p :: rest)
      = (pre.map (fun q => Event.submitCheck q.id 1)
          ++ [Event.submitCheck p.id 3, Event.amAbort], false) := by
  induction pre with
  | nil =>
    rw [List.nil_append, apply_loop]
    simp [hp, hdry, hnu]
  | cons q qs ih =>
    have hq : env.applyOk q.id = true := hpre q (List.mem_cons_self _ _)
    rw [List.cons_append, apply_loop]
    rw [ih (fun x hx => hpre x (List.mem_cons_of_mem _ hx))]
    simp [hq, hdry, hnu]

/-- C10: when the `k`-th patch is the first to fail, a pass check (state 1)
is emitted for each earlier patch as it applies, in series order, all before
the single fail check (state 3) for the failing patch; pass checks are not
withheld until the series succeeds. -/
theorem pass_checks_precede_fail (fl : Flags) (env : Env) (pre : List Patch)
    (p : Patch) (rest : List Patch)
    (hpre : ∀ q ∈ pre, env.applyOk q.id = true)
    (hp : env.applyOk p.id = false)
    (hdry : fl.dry_run = false) (hnu : fl.no_update_check = false) :
    apply_loop fl env (pre ++ p :: rest)
      = (pre.map (fun q => Event.submitCheck q.id 1)
          ++ [Event.submitCheck p.id 3, Event.amAbort], false) :=
  apply_loop_fail_trace fl env pre p rest hpre hp hdry hnu

/-- C10 witness: a two-patch series whose second patch fails. -/
theorem pass_checks_precede_fail_witness :
    apply_loop ⟨false, false, false⟩
        ⟨fun _ => "pending", fun _ => none, fun n => decide (n ≠ 22), fun _ => true,
          true, fun _ => true, fun _ _ => true, fun _ => true⟩
        ([⟨11, "a"⟩] ++ ⟨22, "b"⟩ :: [])
      = ([Event.submitCheck 11 1] ++ [Event.submitCheck 22 3, Event.amAbort], false) := by
  have h := pass_checks_precede_fail ⟨false, false, false⟩
    ⟨fun _ => "pending", fun _ => none, fun n => decide (n ≠ 22), fun _ => true,
      true, fun _ => true, fun _ _ => true, fun _ => true⟩
    [⟨11, "a"⟩] ⟨22, "b"⟩ []
    (by intro q hq; rcases List.mem_singleton.mp hq with rfl; decide)
    (by decide) rfl rfl
  simpa using h

/-- C3: for a processed series whose second patch fails to apply while the
first applies cleanly (with side effects enabled), the apply-and-report phase
emits exactly: a pass check for patch 1, one fail check for patch 2 (and for
no other patch), one apply-abort, one failure notification, and neither a
push nor a pull-request creation. -/
theorem second_patch_fail_trace (fl : Flags) (cfg : EmailCfg) (env : Env)
    (s : Series) (p1 p2 : Patch) (rest : List Patch)
    (hp : s.patches = p1 :: p2 :: rest)
    (h1 : env.applyOk p1.id = true) (h2 : env.applyOk p2.id = false)
    (hdry : fl.dry_run = false) (hnu : fl.no_update_check = false)
    (hen : cfg.enable = true) (htok : cfg.tokenPresent = true) :
    series_apply_report fl cfg env s
        = [Event.submitCheck p1.id 1, Event.submitCheck p2.id 3, Event.amAbort,
            Event.email] ∧
      (series_apply_report fl cfg env s).countP is_fail_check = 1 ∧
      Event.submitCheck p2.id 3 ∈ series_apply_report fl cfg env s ∧
      Event.submitCheck p1.id 3 ∉ series_apply_report fl cfg env s ∧
      (series_apply_report fl cfg env s).countP is_abort_ev = 1 ∧
      (series_apply_report fl cfg env s).countP is_push_ev = 0 ∧
      (series_apply_report fl cfg env s).countP is_create_pr_ev = 0 ∧
      (series_apply_report fl cfg env s).countP is_email_ev = 1 := by
  have hne : p1.id ≠ p2.id := by
    intro hh
    rw [hh] at h1
    rw [h1] at h2
    cases h2
  have htr : apply_loop fl env s.patches
      = ([Event.submitCheck p1.id 1, Event.submitCheck p2.id 3, Event.amAbort],
          false) := by
    rw [hp]
    have h := apply_loop_fail_trace fl env [p1] p2 rest
      (by intro q hq; rcases List.mem_singleton.mp hq with rfl; exact h1)
      h2 hdry hnu
    simpa using h
  have hrep : series_apply_report fl cfg env s
      = [Event.submitCheck p1.id 1, Event.submitCheck p2.id 3, Event.amAbort,
          Event.email] := by
    rw [series_apply_report, htr]
    simp [hdry, email_events, hen, htok]
  refine ⟨hrep, ?_, ?_, ?_, ?_, ?_, ?_, ?_⟩
  · rw [hrep]; rfl
  · rw [hrep]; simp
  · rw [hrep]; simp [hne]
  · rw [hrep]; rfl
  · rw [hrep]; rfl
  · rw [hrep]; rfl
  · rw [hrep]; rfl

/-- C3 witness: a concrete two-patch series with the second patch failing. -/
theorem second_patch_fail_trace_witness :
    series_apply_report ⟨false, false, false⟩ ⟨true, true⟩
        ⟨fun _ => "pending", fun _ => none, fun n => decide (n ≠ 22), fun _ => true,
          true, fun _ => true, fun _ _ => true, fun _ => true⟩
        ⟨5, some "x", [⟨11, "a"⟩, ⟨22, "b"⟩]⟩
      = [Event.submitCheck 11 1, Event.submitCheck 22 3, Event.amAbort,
          Event.email] :=
  (second_patch_fail_trace ⟨false, false, false⟩ ⟨true, true⟩
    ⟨fun _ => "pending", fun _ => none, fun n => decide (n ≠ 22), fun _ => true,
      true, fun _ => true, fun _ _ => true, fun _ => true⟩
    ⟨5, some "x", [⟨11, "a"⟩, ⟨22, "b"⟩]⟩ ⟨11, "a"⟩ ⟨22, "b"⟩ [] rfl
    (by decide) (by decide) rfl rfl rfl rfl).1

/-! ### The already-checked skip -/

/-- C9: the already-checked decision reads only the check state of the
series' first patch: its value is a function of that patch's state alone
(so it is unchanged under any reassignment of later patches' states), and
with the first patch's state not `pending` the per-series loop skips the
series outright when ignore-check is unset. -/
theorem series_checked_first_patch (checkOf : Nat → String) (s : Series)
    (p : Patch) (rest : List Patch) (hp : s.patches = p :: rest) :
    series_checked checkOf s = some (checkOf p.id != "pending") ∧
      (∀ checkOf2 : Nat → String, checkOf2 p.id = checkOf p.id →
        series_checked checkOf2 s = series_checked checkOf s) ∧
      (∀ (fl : Flags) (cfg : EmailCfg) (env : Env) (repo_detail : RepoDetail)
          (pulls : List PullReq),
        fl.ignore_check = false → env.checkOf = checkOf →
        checkOf p.id ≠ "pending" →
        process_series fl cfg env repo_detail pulls s = some []) := by
  have hval : series_checked checkOf s = some (checkOf p.id != "pending") := by
    rw [series_checked, hp]
  refine ⟨hval, ?_, ?_⟩
  · intro c2 hc2
    rw [series_checked, hp, series_checked, hp]
    show some (c2 p.id != "pending") = some (checkOf p.id != "pending")
    rw [hc2]
  · intro fl cfg env repo_detail pulls hic henv hpend
    have hsome : (if fl.ignore_check then some false
        else series_checked env.checkOf s) = some true := by
      rw [hic, henv, hval, bne_iff_ne.mpr hpend]
      rfl
    rw [process_series, hsome]

/-- C9 witness: a one-patch series whose first patch is already checked is
skipped. -/
theorem series_checked_first_patch_witness :
    process_series ⟨false, false, false⟩ ⟨true, true⟩
        ⟨fun _ => "success", fun _ => none, fun _ => true, fun _ => true, true,
          fun _ => true, fun _ _ => true, fun _ => true⟩
        ⟨[], []⟩ [] ⟨5, some "x", [⟨11, "a"⟩]⟩ = some [] :=
  (series_checked_first_patch (fun _ => "success") ⟨5, some "x", [⟨11, "a"⟩]⟩
    ⟨11, "a"⟩ [] rfl).2.2 ⟨false, false, false⟩ ⟨true, true⟩
    ⟨fun _ => "success", fun _ => none, fun _ => true, fun _ => true, true,
      fun _ => true, fun _ _ => true, fun _ => true⟩
    ⟨[], []⟩ [] rfl rfl (by decide)

/-! ### Relevance filter precedence -/

/-- C6: a matching exclude pattern forces `False` even when an include
pattern also matches; with no exclude match, a matching include pattern
gives `True`; with neither matching, the filter falls through to file-path
checking, which yields `False` when the derived file list is empty. -/
theorem filter_repo_type_precedence (rmatch : String → String → Bool)
    (fileOk : String → Bool) (diffOf : Nat → Option String)
    (repo_detail : RepoDetail) (s : Series) (nm : String) (hn : s.name = some nm) :
    ((∃ pat ∈ repo_detail.excl, rmatch pat nm = true) →
      filter_repo_type rmatch fileOk diffOf repo_detail s = some false) ∧
      ((∀ pat ∈ repo_detail.excl, rmatch pat nm = false) →
        (∃ pat ∈ repo_detail.incl, rmatch pat nm = true) →
        filter_repo_type rmatch fileOk diffOf repo_detail s = some true) ∧
      ((∀ pat ∈ repo_detail.excl, rmatch pat nm = false) →
        (∀ pat ∈ repo_detail.incl, rmatch pat nm = false) →
        series_get_file_list diffOf s = [] →
        filter_repo_type rmatch fileOk diffOf repo_detail s = some false) := by
  refine ⟨?_, ?_, ?_⟩
  · rintro ⟨pat, hmem, hmat⟩
    have hany : repo_detail.excl.any (fun pat => rmatch pat nm) = true :=
      List.any_eq_true.mpr ⟨pat, hmem, hmat⟩
    rw [filter_repo_type, hn]
    simp [hany]
  · intro hexc hinc
    have hany : repo_detail.excl.any (fun pat => rmatch pat nm) = false := by
      rw [List.any_eq_false]
      intro pat hmem
      rw [hexc pat hmem]
      exact Bool.false_ne_true
    obtain ⟨pat, hmem, hmat⟩ := hinc
    have hany2 : repo_detail.incl.any (fun pat => rmatch pat nm) = true :=
      List.any_eq_true.mpr ⟨pat, hmem, hmat⟩
    rw [filter_repo_type, hn]
    simp [hany, hany2]
  · intro hexc hinc hfl
    have hany : repo_detail.excl.any (fun pat => rmatch pat nm) = false := by
      rw [List.any_eq_false]
      intro pat hmem
      rw [hexc pat hmem]
      exact Bool.false_ne_true
    have hany2 : repo_detail.incl.any (fun pat => rmatch pat nm) = false := by
      rw [List.any_eq_false]
      intro pat hmem
      rw [hinc pat hmem]
      exact Bool.false_ne_true
    rw [filter_repo_type, hn]
    simp [hany, hany2, hfl]

/-- C6 witness: a series name matching both an exclude and an include pattern
is excluded. -/
theorem filter_repo_type_precedence_witness :
    filter_repo_type (fun pat nm => pat == nm) (fun _ => true) (fun _ => none)
        ⟨["x"], ["x"]⟩ ⟨1, some "x", []⟩ = some false :=
  (filter_repo_type_precedence (fun pat nm => pat == nm) (fun _ => true)
    (fun _ => none) ⟨["x"], ["x"]⟩ ⟨1, some "x", []⟩ "x" rfl).1
    ⟨"x", List.mem_singleton.mpr rfl, by decide⟩

end PwToPr
